import Mathlib

/-!
Shallow embedding of the Forge task-graph data plane, translated from the
SQL and TypeScript given in `src/docs/data-plane-design.md` (the executable
authority of the repository: `src/src/cli.ts` contains only stubs).

The Query Index (SQLite) is modelled as a pair of relations held as lists;
the Record Store (`tasks.jsonl`) as a list of parsed task snapshots.
ISO-8601 timestamps are ordered lexicographically by the code (SQLite TEXT
comparison), which for that format coincides with chronological order; the
model therefore represents a timestamp by the `Nat` time point it denotes,
with the same total order.
-/

namespace Forge

/-- `TaskStatus` from the schema: `'open' | 'in_progress' | 'closed'`. -/
inductive TaskStatus where
  | «open»
  | in_progress
  | closed
deriving DecidableEq

/-- `TaskType` from the schema: `'task' | 'bug' | 'feature' | 'epic' | 'message'`. -/
inductive TaskType where
  | task
  | bug
  | feature
  | epic
  | message
deriving DecidableEq

/-- `DepType` from the schema: `'blocks' | 'related' | 'discovered-from'`. -/
inductive DepType where
  | blocks
  | related
  | discovered_from
deriving DecidableEq

/-- `TaskDependency` record stored inside a task (`{ id, type }`). -/
structure TaskDependency where
  id : String
  type : DepType
deriving DecidableEq

/-- The `Task` interface of the schema.  `metadata` (an arbitrary JSON
object) is modelled as an association list of key/serialized-value pairs;
no operation below inspects it. -/
structure Task where
  id : String
  title : String
  description : String
  status : TaskStatus
  close_reason : Option String
  priority : Nat
  type : TaskType
  assignee : Option String
  parent_id : Option String
  dependencies : List TaskDependency
  labels : List String
  github_issue : Option Int
  created_at : Nat
  created_by : String
  updated_at : Nat
  closed_at : Option Nat
  metadata : List (String × String)
deriving DecidableEq

/-- One row of the `dependencies` table:
`(from_id, to_id, dep_type)` with `PRIMARY KEY (from_id, to_id, dep_type)`. -/
structure DepEdge where
  from_id : String
  to_id : String
  dep_type : DepType
deriving DecidableEq

/-- The SQLite database: the `tasks` relation and the `dependencies` relation. -/
structure Database where
  tasks : List Task
  dependencies : List DepEdge
deriving DecidableEq

/-- A freshly created (or freshly emptied and rebuilt) database. -/
def emptyDb : Database := ⟨[], []⟩

/-- The `id` column of the `tasks` relation. -/
def taskIds (db : Database) : List String := db.tasks.map Task.id

/-- Row lookup by primary key: `SELECT * FROM tasks WHERE id = ?`. -/
def findTask (db : Database) (taskId : String) : Option Task :=
  db.tasks.find? (fun t => decide (t.id = taskId))

/-! ### Claim Coordinator (`claimTask` from the design document) -/

/-- The `WHERE` clause of the claim `UPDATE`:
`id = ? AND status = 'open' AND assignee IS NULL`. -/
def claimMatches (taskId : String) (t : Task) : Prop :=
  t.id = taskId ∧ t.status = TaskStatus.«open» ∧ t.assignee = none

instance instDecClaimMatches (taskId : String) (t : Task) :
    Decidable (claimMatches taskId t) := by
  unfold claimMatches; infer_instance

/-- The `SET` clause of the claim `UPDATE`:
`status = 'in_progress', assignee = ?, updated_at = ?`. -/
def claimUpdate (agentId : String) (now : Nat) (t : Task) : Task :=
  { t with status := TaskStatus.in_progress,
           assignee := some agentId,
           updated_at := now }

/-- `claimTask(db, taskId, agentId)` from the design document.  The SQL
`UPDATE` touches exactly the rows matching the `WHERE` clause; the call
returns `result.changes === 1`.  The current wall-clock ISO timestamp
(`new Date().toISOString()`) is passed in as `now`. -/
def claimTask (db : Database) (taskId agentId : String) (now : Nat) : Bool × Database :=
  let changes := (db.tasks.filter (fun t => decide (claimMatches taskId t))).length
  let tasks := db.tasks.map
    (fun t => if claimMatches taskId t then claimUpdate agentId now t else t)
  (changes == 1, { db with tasks := tasks })

/-! ### Dependency Engine -/

/-- The `NOT IN` subquery of the `forge ready` SQL: `t` is excluded when
some `blocks` edge from `t` joins to an existing task whose status is not
`closed`.  Note the inner `JOIN tasks blocker ON blocker.id = d.to_id`:
an edge whose `to_id` matches no row of `tasks` contributes nothing. -/
def blockedInReady (db : Database) (t : Task) : Prop :=
  ∃ d ∈ db.dependencies, d.from_id = t.id ∧ d.dep_type = DepType.blocks ∧
    ∃ b ∈ db.tasks, b.id = d.to_id ∧ b.status ≠ TaskStatus.closed

instance instDecBlockedInReady (db : Database) (t : Task) :
    Decidable (blockedInReady db t) := by
  unfold blockedInReady; infer_instance

/-- The full `WHERE` clause of `forge ready`. -/
def readySelects (db : Database) (t : Task) : Prop :=
  t.status = TaskStatus.«open» ∧ t.assignee = none ∧ ¬ blockedInReady db t

instance instDecReadySelects (db : Database) (t : Task) :
    Decidable (readySelects db t) := by
  unfold readySelects; infer_instance

/-- `ORDER BY t.priority ASC, t.created_at ASC`: the total preorder the
result rows are sorted by. -/
def readyOrder (a b : Task) : Prop :=
  a.priority < b.priority ∨ (a.priority = b.priority ∧ a.created_at ≤ b.created_at)

instance instDecReadyOrder : DecidableRel readyOrder := by
  unfold readyOrder; intro a b; infer_instance

/-- The `forge ready` query: filter per the `WHERE` clause, then sort by
`priority ASC, created_at ASC` (a stable sort, as SQLite orders the scan).
A pure `SELECT`: it takes the database and returns rows. -/
def ready (db : Database) : List Task :=
  List.insertionSort readyOrder (db.tasks.filter (fun t => decide (readySelects db t)))

/-! ### `forge dep add` -/

/-- `forge dep add` inserts a row into `dependencies`.  The schema declares
`from_id`/`to_id` with `REFERENCES tasks(id)` and the connection runs
`PRAGMA foreign_keys = ON`, so the insert fails unless both endpoints exist
in `tasks`; the `PRIMARY KEY (from_id, to_id, dep_type)` makes re-insertion
of an existing triple a no-op. -/
def depAdd (db : Database) (fromId toId : String) (ty : DepType) :
    Except String Database :=
  if fromId ∈ taskIds db ∧ toId ∈ taskIds db then
    if (⟨fromId, toId, ty⟩ : DepEdge) ∈ db.dependencies then Except.ok db
    else Except.ok { db with dependencies := db.dependencies ++ [⟨fromId, toId, ty⟩] }
  else Except.error "FOREIGN KEY constraint failed"

/-! ### Sync Engine: export and the last-write-wins upsert -/

/-- `forge export`: writes the Index's current task set as one snapshot
line per task (all schema fields verbatim; the excluded `rowid` and
`content_hash` are not part of the model). -/
def forgeExport (db : Database) : List Task := db.tasks

/-- The per-line UPSERT of `forge import`: last-write-wins on `updated_at`
("Import takes the one with the later `updated_at`"); on an equal
timestamp the incoming (later-in-file) line wins, matching "the last
occurrence of a given `id` wins" for snapshots that tie.  A line whose id
is absent is inserted. -/
def upsertRow (t e : Task) : Task :=
  if e.id = t.id ∧ e.updated_at ≤ t.updated_at then t else e

/-- The whole-record upsert of one line: replace the existing row per
`upsertRow` when the id is present, insert otherwise. -/
def upsertTask (db : Database) (t : Task) : Database :=
  if t.id ∈ taskIds db then { db with tasks := db.tasks.map (upsertRow t) }
  else { db with tasks := db.tasks ++ [t] }

/-- Idempotent insertion of the dependency edges implied by one imported
task's `dependencies` list (upsert ignored on the primary key). -/
def insertTaskEdges (db : Database) (t : Task) : Database :=
  let step := fun (es : List DepEdge) (d : TaskDependency) =>
    if (⟨t.id, d.id, d.type⟩ : DepEdge) ∈ es then es
    else es ++ [⟨t.id, d.id, d.type⟩]
  { db with dependencies := t.dependencies.foldl step db.dependencies }

/-- `forge import`: reads the Record Store line by line (here: the already
parsed snapshots; malformed lines are skipped before this point and do not
appear), upserts each task, then inserts the implied dependency edges. -/
def forgeImport (lines : List Task) (db : Database) : Database :=
  lines.foldl insertTaskEdges (lines.foldl upsertTask db)

/-! ### Identity Generator (`generateTaskId`) -/

/-- Base-36 digit characters, `0`-`9` then `a`-`z` (as in
`Number.prototype.toString(36)`). -/
def base36Digit (d : Nat) : Char :=
  if d < 10 then Char.ofNat (48 + d) else Char.ofNat (87 + d)

/-- Most-significant-first base-36 digit list of `n` (no leading zeros),
structurally recursive on a fuel bound; `toString(36)` of a 32-bit value
needs at most 7 digits, and every caller passes fuel 8. -/
def toBase36 : Nat → Nat → List Char
  | 0, _ => []
  | _ + 1, 0 => []
  | fuel + 1, n => toBase36 fuel (n / 36) ++ [base36Digit (n % 36)]

/-- `num.toString(36)`: `"0"` for zero, otherwise the digit string. -/
def base36Repr (n : Nat) : List Char :=
  if n = 0 then ['0'] else toBase36 8 n

/-- `String.prototype.padStart(w, c)` on a character list. -/
def padStart (w : Nat) (c : Char) (l : List Char) : List Char :=
  List.replicate (w - l.length) c ++ l

/-- `String.prototype.slice(-k)`: the last `k` characters. -/
def sliceLast (k : Nat) (l : List Char) : List Char :=
  l.drop (l.length - k)

/-- `generateTaskId` from the design document.  The four random bytes read
as an unsigned 32-bit big-endian integer are modelled by the `num`
argument reduced mod `2 ^ 32`; the function consults nothing else — in
particular no shared counter and not the Query Index. -/
def generateTaskId (pfx : String) (num : Nat) : String :=
  let n := num % 2 ^ 32
  let encoded := sliceLast 4 (padStart 4 '0' (base36Repr n))
  pfx ++ "-" ++ String.mk encoded

/-! ### `forge dep tree` (recursive CTE) -/

/-- One row of the recursive CTE `dep_tree(task_id, depth, path)`. -/
structure DepTreeRow where
  task_id : String
  depth : Nat
  path : String
deriving DecidableEq

/-- The recursive step of the CTE applied to one row: follow `blocks`
edges outward, guarded by `dt.depth < 10` (the cycle guard). -/
def depTreeChildren (deps : List DepEdge) (r : DepTreeRow) : List DepTreeRow :=
  if r.depth < 10 then
    (deps.filter (fun d => decide (d.from_id = r.task_id ∧ d.dep_type = DepType.blocks))).map
      (fun d => ⟨d.to_id, r.depth + 1, r.path ++ " → " ++ d.to_id⟩)
  else []

/-- The rows the CTE produces at iteration `n`: the anchor row at `n = 0`,
then each iteration expands every row of the previous one. -/
def depTreeLevel (deps : List DepEdge) (root rootPath : String) : Nat → List DepTreeRow
  | 0 => [⟨root, 0, rootPath⟩]
  | n + 1 => (depTreeLevel deps root rootPath n).flatMap (depTreeChildren deps)

/-- All rows of the `dep_tree` CTE.  SQLite iterates until a round adds no
rows; the depth guard empties every round past the tenth (proved below),
so the union of the first eleven rounds is the complete, finite result. -/
def depTreeRows (deps : List DepEdge) (root rootPath : String) : List DepTreeRow :=
  (List.range 11).flatMap (depTreeLevel deps root rootPath)

/-! ### Concrete fixtures used by witnesses and counterexamples -/

/-- A baseline task fixture; witnesses derive concrete tasks from it. -/
def baseTask : Task :=
  { id := "fg-0000", title := "t", description := "",
    status := TaskStatus.«open», close_reason := none, priority := 2,
    type := TaskType.task, assignee := none, parent_id := none,
    dependencies := [], labels := [], github_issue := none,
    created_at := 0, created_by := "orchestrator",
    updated_at := 0, closed_at := none,
    metadata := [] }

/-- Fixture: an open, unassigned task. -/
def taskA : Task := { baseTask with id := "fg-a1", created_at := 1, updated_at := 1 }

/-- Fixture: a second open, unassigned task of higher priority. -/
def taskB : Task :=
  { baseTask with
      id := "fg-b2", created_at := 2, updated_at := 2, priority := 0 }

/-- Fixture: a two-task database with one `related` edge. -/
def fixtureDb : Database := ⟨[taskA, taskB], [⟨"fg-a1", "fg-b2", DepType.related⟩]⟩

/-- Fixture: two snapshots of one task with distinct `updated_at`. -/
def snapT1 : Task := { baseTask with id := "fg-x7", title := "first", updated_at := 1 }

/-- Fixture: the later snapshot of `snapT1`'s task. -/
def snapT2 : Task :=
  { baseTask with
      id := "fg-x7", title := "second",
      assignee := some "worker-1", status := TaskStatus.in_progress, updated_at := 2 }

/-- Fixture: a database whose only `blocks` edge references an id that is
absent from the `tasks` relation (an unresolved cross-branch reference). -/
def danglingDb : Database := ⟨[taskA], [⟨"fg-a1", "fg-miss", DepType.blocks⟩]⟩

/-- Fixture: a database that already contains the id that
`generateTaskId "fg" 12345` mints. -/
def collideDb : Database := ⟨[{ baseTask with id := "fg-09ix" }], []⟩

/-- Fixture: a two-cycle of `blocks` edges. -/
def cycEdges : List DepEdge :=
  [⟨"a", "b", DepType.blocks⟩, ⟨"b", "a", DepType.blocks⟩]

/-! ## Helper lemmas about the claim transaction -/

theorem claimTask_snd_tasks (db : Database) (taskId agentId : String) (now : Nat) :
    (claimTask db taskId agentId now).2.tasks =
      db.tasks.map
        (fun t => if claimMatches taskId t then claimUpdate agentId now t else t) := rfl

/-- The primary key makes at most one row match the claim `WHERE` clause. -/
theorem filter_claim_len_le_one (taskId : String) :
    ∀ l : List Task, (l.map Task.id).Nodup →
      (l.filter (fun t => decide (claimMatches taskId t))).length ≤ 1 := by
  intro l
  induction l with
  | nil => intro _; simp
  | cons h tl ih =>
    intro hn
    rw [List.map_cons, List.nodup_cons] at hn
    by_cases hm : claimMatches taskId h
    · have hnil : tl.filter (fun t => decide (claimMatches taskId t)) = [] := by
        rw [List.filter_eq_nil_iff]
        intro u hu hdu
        rw [decide_eq_true_eq] at hdu
        apply hn.1
        have hmem := List.mem_map_of_mem Task.id hu
        rw [hdu.1, ← hm.1] at hmem
        exact hmem
      rw [List.filter_cons_of_pos (by simpa using hm), hnil]
      simp
    · rw [List.filter_cons_of_neg (by simpa using hm)]
      exact ih hn.2

/-- `changes = 1` exactly when some row matches the claim `WHERE` clause. -/
theorem filter_claim_len_eq_one_iff (taskId : String) (l : List Task)
    (hn : (l.map Task.id).Nodup) :
    (l.filter (fun t => decide (claimMatches taskId t))).length = 1 ↔
      ∃ t ∈ l, claimMatches taskId t := by
  constructor
  · intro h1
    obtain ⟨a, ha⟩ := List.length_eq_one.mp h1
    have hmem : a ∈ l.filter (fun t => decide (claimMatches taskId t)) := by
      rw [ha]; exact List.mem_cons_self a []
    rw [List.mem_filter, decide_eq_true_eq] at hmem
    exact ⟨a, hmem.1, hmem.2⟩
  · rintro ⟨t, htl, hm⟩
    have hmem : t ∈ l.filter (fun t => decide (claimMatches taskId t)) :=
      List.mem_filter.mpr ⟨htl, by simpa using hm⟩
    have hpos : 0 < (l.filter (fun t => decide (claimMatches taskId t))).length :=
      List.length_pos.mpr (fun he => by rw [he] at hmem; cases hmem)
    have hle := filter_claim_len_le_one taskId l hn
    omega

/-- With no matching row, the claim `UPDATE` leaves the relation unchanged. -/
theorem claim_map_id (taskId agentId : String) (now : Nat) (l : List Task)
    (h : ∀ t ∈ l, ¬ claimMatches taskId t) :
    l.map (fun t => if claimMatches taskId t then claimUpdate agentId now t else t) = l := by
  induction l with
  | nil => rfl
  | cons a tl ih =>
    rw [List.map_cons, if_neg (h a (List.mem_cons_self a tl)),
      ih (fun t ht => h t (List.mem_cons_of_mem a ht))]

/-- Primary-key lookup finds the unique row with the requested id. -/
theorem find_by_id_eq (taskId : String) (t0 : Task) (hid : t0.id = taskId) :
    ∀ l : List Task, (l.map Task.id).Nodup → t0 ∈ l →
      l.find? (fun t => decide (t.id = taskId)) = some t0 := by
  intro l
  induction l with
  | nil => intro _ ht; cases ht
  | cons h tl ih =>
    intro hn ht
    rw [List.map_cons, List.nodup_cons] at hn
    by_cases hh : h.id = taskId
    · rw [List.find?_cons_of_pos _ (by simpa using hh)]
      rcases List.mem_cons.mp ht with rfl | htl
      · rfl
      · exfalso
        apply hn.1
        have hmem := List.mem_map_of_mem Task.id htl
        rw [hid, ← hh] at hmem
        exact hmem
    · rw [List.find?_cons_of_neg _ (by simpa using hh)]
      rcases List.mem_cons.mp ht with rfl | htl
      · exact absurd hid hh
      · exact ih hn.2 htl

/-- The claim `UPDATE` never changes any row's primary key. -/
theorem claim_apply_id (taskId agentId : String) (now : Nat) (t : Task) :
    (if claimMatches taskId t then claimUpdate agentId now t else t).id = t.id := by
  by_cases hm : claimMatches taskId t
  · rw [if_pos hm]; rfl
  · rw [if_neg hm]

/-- Lookup after the claim transaction, expressed through lookup before it. -/
theorem find_after_claim (db : Database) (taskId agentId : String) (now : Nat) :
    findTask (claimTask db taskId agentId now).2 taskId =
      Option.map (fun t => if claimMatches taskId t then claimUpdate agentId now t else t)
        (findTask db taskId) := by
  unfold findTask
  rw [claimTask_snd_tasks, List.find?_map]
  have hfun : ((fun t : Task => decide (t.id = taskId)) ∘
      fun t => if claimMatches taskId t then claimUpdate agentId now t else t) =
      (fun t : Task => decide (t.id = taskId)) := by
    funext t
    simp only [Function.comp_apply, claim_apply_id]
  rw [hfun]

/-- After any claim call on `taskId`, no row matches a claim of `taskId`. -/
theorem no_match_after_claim (db : Database) (taskId a1 : String) (n1 : Nat) :
    ∀ u ∈ (claimTask db taskId a1 n1).2.tasks, ¬ claimMatches taskId u := by
  intro u hu
  rw [claimTask_snd_tasks] at hu
  obtain ⟨s, hs, rfl⟩ := List.mem_map.mp hu
  by_cases hm : claimMatches taskId s
  · rw [if_pos hm]
    intro hce
    have : TaskStatus.in_progress = TaskStatus.«open» := hce.2.1
    cases this
  · rw [if_neg hm]
    exact hm

/-- A claim with no matching row reports `changes = 0`, hence `false`. -/
theorem claim_false_of_no_match (db : Database) (taskId agentId : String) (now : Nat)
    (h : ∀ t ∈ db.tasks, ¬ claimMatches taskId t) :
    (claimTask db taskId agentId now).1 = false := by
  have hnil : db.tasks.filter (fun t => decide (claimMatches taskId t)) = [] := by
    rw [List.filter_eq_nil_iff]
    intro u hu
    simpa using h u hu
  have hfst : (claimTask db taskId agentId now).1 =
      ((db.tasks.filter (fun t => decide (claimMatches taskId t))).length == 1) := rfl
  rw [hfst, hnil]
  rfl

/-- A claim whose `WHERE` clause matches a row reports `changes = 1`. -/
theorem claim_true_of_match (db : Database) (taskId agentId : String) (now : Nat)
    (hn : (db.tasks.map Task.id).Nodup)
    (t0 : Task) (ht : t0 ∈ db.tasks) (hm : claimMatches taskId t0) :
    (claimTask db taskId agentId now).1 = true := by
  have hlen : (db.tasks.filter (fun t => decide (claimMatches taskId t))).length = 1 :=
    (filter_claim_len_eq_one_iff taskId db.tasks hn).mpr ⟨t0, ht, hm⟩
  have hfst : (claimTask db taskId agentId now).1 =
      ((db.tasks.filter (fun t => decide (claimMatches taskId t))).length == 1) := rfl
  rw [hfst, hlen]
  rfl

/-- Two databases with the same relations are the same database. -/
theorem database_eq (a b : Database) (h1 : a.tasks = b.tasks)
    (h2 : a.dependencies = b.dependencies) : a = b := by
  cases a; cases b; cases h1; cases h2; rfl

/-- A claim that touched no row leaves the whole database unchanged. -/
theorem claim_snd_of_no_match (db : Database) (taskId agentId : String) (now : Nat)
    (h : ∀ t ∈ db.tasks, ¬ claimMatches taskId t) :
    (claimTask db taskId agentId now).2 = db := by
  refine database_eq _ _ ?_ rfl
  rw [claimTask_snd_tasks, claim_map_id taskId agentId now db.tasks h]

/-! ## Claim theorems -/

/-- C2: `claim(id, agent)` returns true exactly when the task with that id
exists with status `open` and no assignee; on success that task's status
becomes `in_progress`, its assignee becomes the agent, and its
`updated_at` is advanced (set to the fresh current timestamp `now`); on
failure — a boolean false, an expected race outcome rather than an error —
the database is left unchanged.  The `Nodup` hypothesis is the `tasks`
primary-key invariant, and `hnow` says the wall clock is ahead of every
stored timestamp. -/
theorem C2_claim_spec (db : Database) (taskId agentId : String) (now : Nat)
    (hn : (db.tasks.map Task.id).Nodup)
    (hnow : ∀ t ∈ db.tasks, t.updated_at < now) :
    ((claimTask db taskId agentId now).1 = true ↔
        ∃ t ∈ db.tasks, t.id = taskId ∧ t.status = TaskStatus.«open» ∧ t.assignee = none) ∧
    ((claimTask db taskId agentId now).1 = true →
        ∃ t, findTask db taskId = some t ∧
          t.status = TaskStatus.«open» ∧ t.assignee = none ∧
          findTask (claimTask db taskId agentId now).2 taskId =
            some (claimUpdate agentId now t) ∧
          (claimUpdate agentId now t).status = TaskStatus.in_progress ∧
          (claimUpdate agentId now t).assignee = some agentId ∧
          t.updated_at < (claimUpdate agentId now t).updated_at) ∧
    ((claimTask db taskId agentId now).1 = false →
        (claimTask db taskId agentId now).2 = db) := by
  have hfst : (claimTask db taskId agentId now).1 =
      ((db.tasks.filter (fun t => decide (claimMatches taskId t))).length == 1) := rfl
  have hiff : (claimTask db taskId agentId now).1 = true ↔
      ∃ t ∈ db.tasks, claimMatches taskId t := by
    rw [hfst, beq_iff_eq]
    exact filter_claim_len_eq_one_iff taskId db.tasks hn
  refine ⟨by simpa [claimMatches] using hiff, ?_, ?_⟩
  · intro hb
    obtain ⟨t, htmem, hm⟩ := hiff.mp hb
    have hfind : findTask db taskId = some t := find_by_id_eq taskId t hm.1 db.tasks hn htmem
    refine ⟨t, hfind, hm.2.1, hm.2.2, ?_, rfl, rfl, ?_⟩
    · rw [find_after_claim, hfind]
      show some (if claimMatches taskId t then claimUpdate agentId now t else t) = _
      rw [if_pos hm]
    · exact hnow t htmem
  · intro hb
    have hne : (db.tasks.filter (fun t => decide (claimMatches taskId t))).length ≠ 1 := by
      intro h1
      rw [hfst, h1] at hb
      cases hb
    have hle := filter_claim_len_le_one taskId db.tasks hn
    have h0 : (db.tasks.filter (fun t => decide (claimMatches taskId t))).length = 0 := by omega
    have hnil := List.length_eq_zero.mp h0
    have hnom : ∀ t ∈ db.tasks, ¬ claimMatches taskId t := by
      intro t ht hm
      have hmem : t ∈ db.tasks.filter (fun t => decide (claimMatches taskId t)) :=
        List.mem_filter.mpr ⟨ht, by simpa using hm⟩
      rw [hnil] at hmem
      cases hmem
    exact claim_snd_of_no_match db taskId agentId now hnom

theorem C2_claim_spec_witness :
    ((fixtureDb.tasks.map Task.id).Nodup ∧ ∀ t ∈ fixtureDb.tasks, t.updated_at < 5) ∧
    ((claimTask fixtureDb "fg-a1" "worker-1" 5).1 = true ↔
      ∃ t ∈ fixtureDb.tasks,
        t.id = "fg-a1" ∧ t.status = TaskStatus.«open» ∧ t.assignee = none) :=
  ⟨⟨by decide, by decide⟩,
    (C2_claim_spec fixtureDb "fg-a1" "worker-1" 5 (by decide) (by decide)).1⟩

/-- C3: with one open, unassigned task and two claims for it by two agents,
the claims are serialized by the Query Index writer lock (SQLite `BEGIN
IMMEDIATE` / the serialized `UPDATE`), so a concurrent execution is one of
the two sequential orders; in either order the first call returns true and
the second false — exactly one of the two succeeds, never both. -/
theorem C3_claim_race (db : Database) (taskId a1 a2 : String) (n1 n2 : Nat)
    (hn : (db.tasks.map Task.id).Nodup)
    (t0 : Task) (ht : t0 ∈ db.tasks) (hid : t0.id = taskId)
    (hopen : t0.status = TaskStatus.«open») (hass : t0.assignee = none) :
    ((claimTask db taskId a1 n1).1 = true ∧
      (claimTask (claimTask db taskId a1 n1).2 taskId a2 n2).1 = false) ∧
    ((claimTask db taskId a2 n2).1 = true ∧
      (claimTask (claimTask db taskId a2 n2).2 taskId a1 n1).1 = false) := by
  have hm : claimMatches taskId t0 := ⟨hid, hopen, hass⟩
  exact ⟨⟨claim_true_of_match db taskId a1 n1 hn t0 ht hm,
      claim_false_of_no_match _ taskId a2 n2 (no_match_after_claim db taskId a1 n1)⟩,
    ⟨claim_true_of_match db taskId a2 n2 hn t0 ht hm,
      claim_false_of_no_match _ taskId a1 n1 (no_match_after_claim db taskId a2 n2)⟩⟩

theorem C3_claim_race_witness :
    ((fixtureDb.tasks.map Task.id).Nodup ∧ taskA ∈ fixtureDb.tasks ∧
      taskA.id = "fg-a1" ∧ taskA.status = TaskStatus.«open» ∧ taskA.assignee = none) ∧
    (claimTask fixtureDb "fg-a1" "w1" 5).1 = true ∧
    (claimTask (claimTask fixtureDb "fg-a1" "w1" 5).2 "fg-a1" "w2" 6).1 = false := by
  have h := C3_claim_race fixtureDb "fg-a1" "w1" "w2" 5 6 (by decide) taskA
    (by decide) (by decide) (by decide) (by decide)
  exact ⟨⟨by decide, by decide, by decide, by decide, by decide⟩, h.1.1, h.1.2⟩

/-- C10: a claim on an id absent from the `tasks` relation matches no row,
so it returns the same boolean false as a lost race (the return type has
no separate not-found channel) and leaves the database unchanged. -/
theorem C10_claim_missing (db : Database) (taskId agentId : String) (now : Nat)
    (h : taskId ∉ taskIds db) :
    claimTask db taskId agentId now = (false, db) := by
  have hnom : ∀ t ∈ db.tasks, ¬ claimMatches taskId t := by
    intro t ht hm
    apply h
    have hmm := List.mem_map_of_mem Task.id ht
    rw [hm.1] at hmm
    exact hmm
  have h1 := claim_false_of_no_match db taskId agentId now hnom
  have h2 := claim_snd_of_no_match db taskId agentId now hnom
  exact Prod.ext h1 h2

theorem C10_claim_missing_witness :
    ("fg-zz" ∉ taskIds fixtureDb) ∧
    claimTask fixtureDb "fg-zz" "w1" 5 = (false, fixtureDb) :=
  ⟨by decide, C10_claim_missing fixtureDb "fg-zz" "w1" 5 (by decide)⟩

/-! ## Sync Engine lemmas and theorems -/

/-- Edge insertion never touches the `tasks` relation. -/
theorem foldl_insertTaskEdges_tasks :
    ∀ (lines : List Task) (db : Database),
      (lines.foldl insertTaskEdges db).tasks = db.tasks := by
  intro lines
  induction lines with
  | nil => intro db; rfl
  | cons t rest ih =>
    intro db
    rw [List.foldl_cons, ih (insertTaskEdges db t)]
    rfl

/-- The `tasks` relation after import is determined by the task upserts. -/
theorem forgeImport_tasks (lines : List Task) (db : Database) :
    (forgeImport lines db).tasks = (lines.foldl upsertTask db).tasks := by
  unfold forgeImport
  exact foldl_insertTaskEdges_tasks lines (lines.foldl upsertTask db)

/-- Upserting a line whose id is fresh appends it. -/
theorem upsertTask_not_mem (db : Database) (t : Task) (h : t.id ∉ taskIds db) :
    upsertTask db t = { db with tasks := db.tasks ++ [t] } := by
  unfold upsertTask
  rw [if_neg h]

/-- Importing lines with fresh, pairwise distinct ids appends them in order. -/
theorem import_fresh :
    ∀ (lines : List Task) (db : Database), (lines.map Task.id).Nodup →
      (∀ t ∈ lines, t.id ∉ taskIds db) →
      (lines.foldl upsertTask db).tasks = db.tasks ++ lines := by
  intro lines
  induction lines with
  | nil => intro db _ _; simp
  | cons t rest ih =>
    intro db hn hfresh
    rw [List.map_cons, List.nodup_cons] at hn
    have ht : t.id ∉ taskIds db := hfresh t (List.mem_cons_self t rest)
    rw [List.foldl_cons, upsertTask_not_mem db t ht]
    have hfresh2 : ∀ u ∈ rest, u.id ∉ taskIds { db with tasks := db.tasks ++ [t] } := by
      intro u hu hmem
      have hmem2 : u.id ∈ taskIds db ++ [t.id] := by
        simpa [taskIds] using hmem
      rcases List.mem_append.mp hmem2 with hcase | hcase
      · exact hfresh u (List.mem_cons_of_mem t hu) hcase
      · have hid : u.id = t.id := by simpa using hcase
        apply hn.1
        rw [← hid]
        exact List.mem_map_of_mem Task.id hu
    rw [ih { db with tasks := db.tasks ++ [t] } hn.2 hfresh2]
    simp

/-- C1: for a Record Store holding two snapshot lines for the same id with
`updated_at` t1 < t2, in either file order, import produces a `tasks`
relation holding exactly the t2 snapshot: the upsert is keyed by
`updated_at`, so a later line carrying the earlier timestamp does not
overwrite the already-imported later record. -/
theorem C1_import_lww (s1 s2 : Task) (hid : s1.id = s2.id)
    (hlt : s1.updated_at < s2.updated_at) :
    (forgeImport [s1, s2] emptyDb).tasks = [s2] ∧
    (forgeImport [s2, s1] emptyDb).tasks = [s2] := by
  have hudb1 : upsertTask emptyDb s1 = ⟨[s1], []⟩ := by
    apply upsertTask_not_mem
    intro h
    cases h
  have hudb2 : upsertTask emptyDb s2 = ⟨[s2], []⟩ := by
    apply upsertTask_not_mem
    intro h
    cases h
  constructor
  · rw [forgeImport_tasks]
    show (upsertTask (upsertTask emptyDb s1) s2).tasks = [s2]
    rw [hudb1]
    unfold upsertTask
    rw [if_pos (by simp [taskIds, hid])]
    show [upsertRow s2 s1] = [s2]
    unfold upsertRow
    rw [if_pos ⟨hid, le_of_lt hlt⟩]
  · rw [forgeImport_tasks]
    show (upsertTask (upsertTask emptyDb s2) s1).tasks = [s2]
    rw [hudb2]
    unfold upsertTask
    rw [if_pos (by simp [taskIds, hid])]
    show [upsertRow s1 s2] = [s2]
    unfold upsertRow
    rw [if_neg (fun hc => absurd hc.2 (not_le.mpr hlt))]

theorem C1_import_lww_witness :
    (snapT1.id = snapT2.id ∧ snapT1.updated_at < snapT2.updated_at) ∧
    (forgeImport [snapT1, snapT2] emptyDb).tasks = [snapT2] ∧
    (forgeImport [snapT2, snapT1] emptyDb).tasks = [snapT2] := by
  have h := C1_import_lww snapT1 snapT2 (by decide) (by decide)
  exact ⟨⟨by decide, by decide⟩, h.1, h.2⟩

/-- C8: `export` followed by `import` into a freshly emptied database
reproduces the same `tasks` relation — the same task set with the same
field values, row for row.  The `Nodup` hypothesis is the `tasks`
primary-key invariant. -/
theorem C8_roundtrip (db : Database) (hn : (db.tasks.map Task.id).Nodup) :
    (forgeImport (forgeExport db) emptyDb).tasks = db.tasks := by
  rw [forgeImport_tasks]
  have h := import_fresh (forgeExport db) emptyDb hn ?_
  · simpa [forgeExport, emptyDb] using h
  · intro t _ hmem
    cases hmem

theorem C8_roundtrip_witness :
    (fixtureDb.tasks.map Task.id).Nodup ∧
    (forgeImport (forgeExport fixtureDb) emptyDb).tasks = fixtureDb.tasks :=
  ⟨by decide, C8_roundtrip fixtureDb (by decide)⟩

/-! ## Dependency Engine lemmas and theorems -/

instance instTransReadyOrder : IsTrans Task readyOrder := by
  constructor
  intro a b c hab hbc
  unfold readyOrder at hab hbc ⊢
  rcases hab with h1 | h1 <;> rcases hbc with h2 | h2
  · exact Or.inl (lt_trans h1 h2)
  · exact Or.inl (h2.1 ▸ h1)
  · exact Or.inl (by rw [h1.1]; exact h2)
  · exact Or.inr ⟨h1.1.trans h2.1, le_trans h1.2 h2.2⟩

instance instTotalReadyOrder : IsTotal Task readyOrder := by
  constructor
  intro a b
  unfold readyOrder
  rcases Nat.lt_trichotomy a.priority b.priority with h | h | h
  · exact Or.inl (Or.inl h)
  · rcases Nat.le_total a.created_at b.created_at with hc | hc
    · exact Or.inl (Or.inr ⟨h, hc⟩)
    · exact Or.inr (Or.inr ⟨h.symm, hc⟩)
  · exact Or.inr (Or.inl h)

/-- A row is in the `forge ready` result exactly when the `WHERE` clause
selects it. -/
theorem mem_ready_iff (db : Database) (t : Task) :
    t ∈ ready db ↔ t ∈ db.tasks ∧ readySelects db t := by
  unfold ready
  rw [(List.perm_insertionSort readyOrder _).mem_iff, List.mem_filter,
    decide_eq_true_eq]

/-- C4: `ready()` returns exactly the tasks that are `open`, unassigned,
and have no outbound `blocks` edge to an existing not-closed task, sorted
by `priority` ascending then `created_at` ascending; being a plain
`SELECT` over the relations, it mutates nothing. -/
theorem C4_ready_spec (db : Database) :
    (∀ t, t ∈ ready db ↔
      t ∈ db.tasks ∧ t.status = TaskStatus.«open» ∧ t.assignee = none ∧
        ¬ ∃ d ∈ db.dependencies, d.from_id = t.id ∧ d.dep_type = DepType.blocks ∧
          ∃ b ∈ db.tasks, b.id = d.to_id ∧ b.status ≠ TaskStatus.closed) ∧
    List.Pairwise readyOrder (ready db) := by
  constructor
  · intro t
    rw [mem_ready_iff]
    unfold readySelects blockedInReady
    exact Iff.rfl
  · exact List.sorted_insertionSort readyOrder _

theorem C4_ready_spec_witness :
    taskB ∈ ready fixtureDb ↔
      taskB ∈ fixtureDb.tasks ∧ taskB.status = TaskStatus.«open» ∧
        taskB.assignee = none ∧
        ¬ ∃ d ∈ fixtureDb.dependencies,
          d.from_id = taskB.id ∧ d.dep_type = DepType.blocks ∧
          ∃ b ∈ fixtureDb.tasks, b.id = d.to_id ∧ b.status ≠ TaskStatus.closed :=
  (C4_ready_spec fixtureDb).1 taskB

/-- C5 counterexample: in `danglingDb` the task `taskA` carries a `blocks`
edge to `"fg-miss"`, an id absent from `tasks`; the claim says such a task
is treated as still blocked and absent from `ready()`, but it is returned. -/
theorem C5_counterexample :
    (⟨"fg-a1", "fg-miss", DepType.blocks⟩ : DepEdge) ∈ danglingDb.dependencies ∧
    ("fg-miss" ∉ taskIds danglingDb) ∧
    taskA ∈ danglingDb.tasks ∧ taskA.id = "fg-a1" ∧
    taskA ∈ ready danglingDb := by decide

/-- C5 amended: the blocker join drops unresolved references, so a task
whose outbound `blocks` edges all point at ids absent from `tasks` is
treated as unblocked: if it is open and unassigned it appears in
`ready()`. -/
theorem C5_amended_dangling_ready (db : Database) (t : Task)
    (ht : t ∈ db.tasks) (hopen : t.status = TaskStatus.«open»)
    (hass : t.assignee = none)
    (hdangling : ∀ d ∈ db.dependencies, d.from_id = t.id →
      d.dep_type = DepType.blocks → d.to_id ∉ taskIds db) :
    t ∈ ready db := by
  rw [mem_ready_iff]
  refine ⟨ht, hopen, hass, ?_⟩
  unfold blockedInReady
  rintro ⟨d, hd, hfrom, htype, b, hb, hbid, _⟩
  apply hdangling d hd hfrom htype
  have hmm := List.mem_map_of_mem Task.id hb
  rw [hbid] at hmm
  exact hmm

theorem C5_amended_witness :
    (taskA ∈ danglingDb.tasks ∧ taskA.status = TaskStatus.«open» ∧
      taskA.assignee = none) ∧
    taskA ∈ ready danglingDb :=
  ⟨⟨by decide, by decide, by decide⟩,
    C5_amended_dangling_ready danglingDb taskA (by decide) (by decide) (by decide)
      (by decide)⟩

/-! ## `forge dep add` theorems -/

/-- C6 counterexample: with foreign keys enforced, `dep add` to the
not-yet-visible id `"fg-miss"` is rejected, not tolerated. -/
theorem C6_counterexample :
    depAdd danglingDb "fg-a1" "fg-miss" DepType.blocks =
      Except.error "FOREIGN KEY constraint failed" ∧
    ("fg-miss" ∉ taskIds danglingDb) ∧ "fg-a1" ∈ taskIds danglingDb :=
  ⟨rfl, by decide, by decide⟩

/-- C6 amended: `dep.add` succeeds exactly when both endpoint ids exist in
the `tasks` relation (the schema's `REFERENCES tasks(id)` under
`PRAGMA foreign_keys = ON`); an edge referencing an id absent from
`tasks`, such as a not-yet-visible cross-branch referent, is rejected with
a foreign-key error rather than tolerated. -/
theorem C6_amended_fk (db : Database) (fromId toId : String) (ty : DepType) :
    (∃ db2, depAdd db fromId toId ty = Except.ok db2) ↔
      fromId ∈ taskIds db ∧ toId ∈ taskIds db := by
  constructor
  · rintro ⟨db2, hok⟩
    by_cases hc : fromId ∈ taskIds db ∧ toId ∈ taskIds db
    · exact hc
    · unfold depAdd at hok
      rw [if_neg hc] at hok
      cases hok
  · intro hc
    unfold depAdd
    rw [if_pos hc]
    by_cases he : (⟨fromId, toId, ty⟩ : DepEdge) ∈ db.dependencies
    · rw [if_pos he]
      exact ⟨db, rfl⟩
    · rw [if_neg he]
      exact ⟨_, rfl⟩

theorem C6_amended_witness :
    ∃ db2, depAdd fixtureDb "fg-a1" "fg-b2" DepType.blocks = Except.ok db2 :=
  (C6_amended_fk fixtureDb "fg-a1" "fg-b2" DepType.blocks).mpr (by decide)

/-! ## Identity Generator theorems -/

/-- C7 counterexample: `generateTaskId` consults nothing but its arguments
— in particular not the Query Index — so on entropy 12345 it returns
`"fg-09ix"` even though `collideDb` already contains that id: no retry
happens and the colliding id is returned as minted. -/
theorem C7_counterexample :
    generateTaskId "fg" 12345 = "fg-09ix" ∧
    generateTaskId "fg" 12345 ∈ taskIds collideDb := by decide

/-- Every digit the encoder emits is a base-36 digit character. -/
theorem toBase36_mem (fuel : Nat) :
    ∀ n : Nat, ∀ c ∈ toBase36 fuel n, ∃ d, d < 36 ∧ c = base36Digit d := by
  induction fuel with
  | zero =>
    intro n c hc
    cases hc
  | succ f ih =>
    intro n c hc
    cases n with
    | zero => cases hc
    | succ m =>
      rw [show toBase36 (f + 1) (m + 1) =
          toBase36 f ((m + 1) / 36) ++ [base36Digit ((m + 1) % 36)] from rfl] at hc
      rcases List.mem_append.mp hc with hrec | hlast
      · exact ih ((m + 1) / 36) c hrec
      · have hc2 : c = base36Digit ((m + 1) % 36) := by simpa using hlast
        exact ⟨(m + 1) % 36, Nat.mod_lt _ (by omega), hc2⟩

/-- The characters of `toString(36)` output are base-36 digit characters. -/
theorem base36Repr_mem (n : Nat) :
    ∀ c ∈ base36Repr n, ∃ d, d < 36 ∧ c = base36Digit d := by
  intro c hc
  unfold base36Repr at hc
  by_cases h0 : n = 0
  · rw [if_pos h0] at hc
    have hc2 : c = '0' := by simpa using hc
    exact ⟨0, by omega, by rw [hc2]; rfl⟩
  · rw [if_neg h0] at hc
    exact toBase36_mem 8 n c hc

/-- A base-36 digit character is a decimal digit or a lowercase letter. -/
theorem base36Digit_range (d : Nat) (hd : d < 36) :
    (48 ≤ (base36Digit d).toNat ∧ (base36Digit d).toNat ≤ 57) ∨
    (97 ≤ (base36Digit d).toNat ∧ (base36Digit d).toNat ≤ 122) := by
  interval_cases d <;> decide

/-- C7 amended: the identity generator never consults a shared counter or
the Query Index — `generateTaskId` is a deterministic function of the
prefix and the 32-bit entropy alone (it depends only on `num mod 2 ^ 32`),
always returning the prefix, a dash, and exactly four base-36 characters
(decimal digits or lowercase letters); there is no collision check, so
when the Index already contains the minted id the same colliding id is
returned (see the counterexample). -/
theorem C7_amended_generator (pfx : String) (num : Nat) :
    generateTaskId pfx num = generateTaskId pfx (num % 2 ^ 32) ∧
    ∃ cs : List Char, generateTaskId pfx num = pfx ++ "-" ++ String.mk cs ∧
      cs.length = 4 ∧
      ∀ c ∈ cs, (48 ≤ c.toNat ∧ c.toNat ≤ 57) ∨ (97 ≤ c.toNat ∧ c.toNat ≤ 122) := by
  constructor
  · unfold generateTaskId
    rw [Nat.mod_mod_of_dvd num dvd_rfl]
  · refine ⟨sliceLast 4 (padStart 4 '0' (base36Repr (num % 2 ^ 32))), rfl, ?_, ?_⟩
    · unfold sliceLast padStart
      rw [List.length_drop, List.length_append, List.length_replicate]
      omega
    · intro c hc
      have hpad : c ∈ padStart 4 '0' (base36Repr (num % 2 ^ 32)) :=
        (List.drop_sublist _ _).mem hc
      unfold padStart at hpad
      rcases List.mem_append.mp hpad with hrep | hrepr
      · have hc0 : c = '0' := (List.mem_replicate.mp hrep).2
        rw [hc0]
        decide
      · obtain ⟨d, hd, rfl⟩ := base36Repr_mem (num % 2 ^ 32) c hrepr
        exact base36Digit_range d hd

theorem C7_amended_witness :
    generateTaskId "fg" 12345 = generateTaskId "fg" (12345 % 2 ^ 32) :=
  (C7_amended_generator "fg" 12345).1

/-! ## `forge dep tree` theorems -/

/-- Every row produced at CTE iteration `n` sits at depth `n`. -/
theorem depTreeLevel_depth (deps : List DepEdge) (root rootPath : String) :
    ∀ n, ∀ r ∈ depTreeLevel deps root rootPath n, r.depth = n := by
  intro n
  induction n with
  | zero =>
    intro r hr
    have hr2 : r = ⟨root, 0, rootPath⟩ := by simpa [depTreeLevel] using hr
    rw [hr2]
  | succ n ih =>
    intro r hr
    rw [show depTreeLevel deps root rootPath (n + 1) =
        (depTreeLevel deps root rootPath n).flatMap (depTreeChildren deps) from rfl] at hr
    obtain ⟨q, hq, hrc⟩ := List.mem_flatMap.mp hr
    unfold depTreeChildren at hrc
    by_cases hd : q.depth < 10
    · rw [if_pos hd] at hrc
      obtain ⟨d, _, rfl⟩ := List.mem_map.mp hrc
      rw [ih q hq]
    · rw [if_neg hd] at hrc
      cases hrc

/-- The depth guard empties every CTE iteration past the tenth: the
recursion reaches its fixed point, so the query terminates. -/
theorem depTreeLevel_past_bound (deps : List DepEdge) (root rootPath : String) :
    ∀ k, depTreeLevel deps root rootPath (11 + k) = [] := by
  intro k
  induction k with
  | zero =>
    rw [show depTreeLevel deps root rootPath (11 + 0) =
        (depTreeLevel deps root rootPath 10).flatMap (depTreeChildren deps) from rfl]
    rw [List.eq_nil_iff_forall_not_mem]
    intro r hr
    obtain ⟨q, hq, hrc⟩ := List.mem_flatMap.mp hr
    have hq10 : q.depth = 10 := depTreeLevel_depth deps root rootPath 10 q hq
    unfold depTreeChildren at hrc
    rw [if_neg (by omega)] at hrc
    cases hrc
  | succ k ih =>
    rw [show depTreeLevel deps root rootPath (11 + (k + 1)) =
        (depTreeLevel deps root rootPath (11 + k)).flatMap (depTreeChildren deps) from rfl]
    rw [ih]
    rfl

/-- C9: over any edge set, cyclic or not, the `dep_tree` traversal
terminates — iterations past the depth bound produce no rows, so the CTE
reaches its fixed point — and every row of the finite result list sits at
a depth within the fixed bound of 10. -/
theorem C9_depTree_bounded (deps : List DepEdge) (root rootPath : String) :
    (∀ r ∈ depTreeRows deps root rootPath, r.depth ≤ 10) ∧
    (∀ k, depTreeLevel deps root rootPath (11 + k) = []) := by
  constructor
  · intro r hr
    unfold depTreeRows at hr
    obtain ⟨n, hn, hrl⟩ := List.mem_flatMap.mp hr
    have hd := depTreeLevel_depth deps root rootPath n r hrl
    have hn10 : n < 11 := List.mem_range.mp hn
    omega
  · exact depTreeLevel_past_bound deps root rootPath

theorem C9_depTree_witness :
    ((⟨"b", 1, "a → b"⟩ : DepTreeRow) ∈ depTreeRows cycEdges "a" "a") ∧
    (⟨"b", 1, "a → b"⟩ : DepTreeRow).depth ≤ 10 :=
  ⟨by decide, (C9_depTree_bounded cycEdges "a" "a").1 ⟨"b", 1, "a → b"⟩ (by decide)⟩

end Forge
